import Mathlib

/-
Verification of the configuration-documentation tool (doctool).

The repository contains three variants of the same program:
  * src/cmd/doctool/main.go   (namespace Main below)
  * src/unnamed/part_000      (namespace P0 below)
  * src/unnamed/part_001      (namespace P1 below)

Shallow embedding conventions:
  * reflect.Type is modelled by the inductive RType; a possibly-nil
    reflect.Type is Option RType.
  * uintptr storage identities are Nat.
  * flag.Flag is modelled by the structure Flag; the rendered value
    f.Value.String() is the field Value, and the storage identity
    reflect.ValueOf(f.Value).Pointer() is the field ValuePtr.
  * Go maps with overwrite-on-insert are modelled as functions
    Nat -> Option Flag built by folding insertions left to right.
  * Go's reserved word Type is not a usable Lean field name, so the
    corresponding fields are called Ty.
-/

namespace Doctool

/-- Model of reflect.Type (non-nil).  Constructors cover the kinds the
doctool's getType switch distinguishes, plus the kinds that fall into its
default branch (8-bit integers, uintptr, bool, string). -/
inductive RType where
  | intK
  | int8K
  | int16K
  | int32K
  | int64K
  | uintK
  | uint8K
  | uint16K
  | uint32K
  | uint64K
  | uintptrK
  | float32K
  | float64K
  | boolK
  | stringK
  | slice (elem : RType)
  | struct_ (pkgPath : String) (name : String)
  | ptr (elem : RType)
deriving DecidableEq

/-- Result of t.Kind().String() in Go's reflect package, used by the
default branch of every getType variant. -/
def RType.kindName : RType → String
  | .intK => "int"
  | .int8K => "int8"
  | .int16K => "int16"
  | .int32K => "int32"
  | .int64K => "int64"
  | .uintK => "uint"
  | .uint8K => "uint8"
  | .uint16K => "uint16"
  | .uint32K => "uint32"
  | .uint64K => "uint64"
  | .uintptrK => "uintptr"
  | .float32K => "float32"
  | .float64K => "float64"
  | .boolK => "bool"
  | .stringK => "string"
  | .slice _ => "slice"
  | .struct_ _ _ => "struct"
  | .ptr _ => "ptr"

/-- Model of flag.Flag.  Name, Usage and DefValue are the Go fields of the
same names; Value is the currently rendered value f.Value.String(); ValuePtr
is the storage identity reflect.ValueOf(f.Value).Pointer(). -/
structure Flag where
  Name : String
  Usage : String
  Value : String
  ValuePtr : Nat
  DefValue : String
deriving DecidableEq

/-- Block from src/cmd/doctool/blocks.go lines 39-43: a registry entry
with a name, a description and a match type (field Type, called Ty here).
Every entry of Blocks() sets Type with reflect.TypeOf of a configuration
struct value (blocks.go lines 53-206), so the registered descriptor is a
non-nil struct type. -/
structure Block where
  Name : String
  Desc : String
  Ty : RType
deriving DecidableEq

/-- The descriptor of reflect's internal implementation type
*reflect.rtype: every non-nil reflect.Type interface value holds a
*reflect.rtype pointer as its concrete value. -/
def reflectRtypePtr : RType := .ptr (.struct_ "reflect" "rtype")

/-- reflect.TypeOf applied to a (non-nil) reflect.Type interface value,
as main.go line 145 does with block.Type: TypeOf returns the dynamic type
of the interface's concrete value, which is reflect's implementation
pointer *reflect.rtype - the SAME descriptor whatever registered type the
argument describes. -/
def typeOfTypeValue (_ : RType) : RType := reflectRtypePtr

/-- Result of fmt.Sprintf("%v", b) for a bool b. -/
def boolStr (b : Bool) : String :=
  if b then "true" else "false"

/-- indent from all three files: a string builder loop writing two spaces
i times. -/
def indent : Nat → String
  | 0 => ""
  | i + 1 => indent i ++ "  "

/-- The flag part of a leaf line in PrintConfigTree: the writes performed
when t.Flag != nil, and the empty string otherwise. -/
def flagSuffix : Option Flag → String
  | some f => " -" ++ f.Name ++ "=" ++ f.DefValue
  | none => ""

/-- Go map write m[k] = v on a map modelled as a lookup function. -/
def mapInsert (m : Nat → Option Flag) (k : Nat) (v : Flag) : Nat → Option Flag :=
  fun p => if p = k then some v else m p

/-- Body of the VisitAll closure in parseFlags (identical in all three
files): skip a flag whose rendered value is "deprecated", otherwise insert
it into the identity map. -/
def parseStep (m : Nat → Option Flag) (f : Flag) : Nat → Option Flag :=
  if f.Value = "deprecated" then m else mapInsert m f.ValuePtr f

/-- parseFlags (identical in all three files): fold the visitation order of
the flag set over the map insertions; a later flag with the same ValuePtr
overwrites an earlier one, exactly as the Go map write does. -/
def parseFlags (fs : List Flag) : Nat → Option Flag :=
  fs.foldl parseStep (fun _ => none)

namespace Main

/-- Node from src/cmd/doctool/main.go lines 10-19, field for field
(Type is called Ty). -/
inductive Node where
  | mk (Name : String) (Desc : String) (Ty : Option RType) (Tag : List String)
      (Children : List Node) (Pointer : Nat) (Flag : Option Flag) (IsRoot : Bool)

def Node.Name : Node → String
  | .mk v _ _ _ _ _ _ _ => v

def Node.Desc : Node → String
  | .mk _ v _ _ _ _ _ _ => v

def Node.Ty : Node → Option RType
  | .mk _ _ v _ _ _ _ _ => v

def Node.Tag : Node → List String
  | .mk _ _ _ v _ _ _ _ => v

def Node.Children : Node → List Node
  | .mk _ _ _ _ v _ _ _ => v

def Node.Pointer : Node → Nat
  | .mk _ _ _ _ _ v _ _ => v

def Node.Flag : Node → Option Flag
  | .mk _ _ _ _ _ _ v _ => v

def Node.IsRoot : Node → Bool
  | .mk _ _ _ _ _ _ _ v => v

/-- Field assignment node.IsRoot = b. -/
def Node.setIsRoot : Node → Bool → Node
  | .mk n d ty tg cs p f _, b => .mk n d ty tg cs p f b

/-- Field assignment node.Desc = s. -/
def Node.setDesc : Node → String → Node
  | .mk n _ ty tg cs p f r, s => .mk n s ty tg cs p f r

/-- getType from main.go lines 31-54.  The switch arms are translated
case by case; the default branch returns t.Kind().String(). -/
def getType : RType → String
  | .intK | .int16K | .int32K | .int64K
  | .uintK | .uint16K | .uint32K | .uint64K => "int"
  | .float32K | .float64K => "float"
  | .slice e => "list[" ++ getType e ++ "]"
  | .struct_ _ n => n
  | .ptr e => "*" ++ getType e
  | t => RType.kindName t

/-- main.go's getType viewed on a possibly-nil reflect.Type: the function
(lines 31-54) has no nil branch, so t.Kind() on a nil descriptor panics,
embedded as none; a non-nil descriptor gets its switch label.  main.go
itself calls getType only under the guard t.Type != nil (line 97). -/
def getTypeOpt : Option RType → Option String
  | none => none
  | some t => some (getType t)

mutual
/-- WalkConfigTree from main.go lines 117-124: replace every child by its
walked version, then apply fn to the node carrying the walked children. -/
def WalkConfigTree : Node → (Node → Node) → Node
  | .mk n d ty tg cs p f r, fn => fn (.mk n d ty tg (walkChildren cs fn) p f r)

/-- The in-place loop over tree.Children inside WalkConfigTree. -/
def walkChildren : List Node → (Node → Node) → List Node
  | [], _ => []
  | c :: cs, fn => WalkConfigTree c fn :: walkChildren cs fn
end

mutual
/-- PrintConfigTree from main.go lines 93-115.  Note the debug write of
fmt.Sprintf(" (%v)", t.IsRoot) directly after the name (line 96). -/
def PrintConfigTree : Node → Nat → String
  | .mk nm _ ty _ cs _ f r, i =>
    let sb := nm ++ " (" ++ boolStr r ++ ")"
    let sb := match ty, cs with
      | some t, [] => sb ++ ": " ++ getType t ++ flagSuffix f
      | _, _ => sb
    match cs with
    | [] => sb
    | _ :: _ => sb ++ " \x7b\n" ++ printChildren cs (i + 1) ++ indent i ++ "\x7d"

/-- The children loop of PrintConfigTree, already at depth i+1. -/
def printChildren : List Node → Nat → String
  | [], _ => ""
  | c :: cs, i => indent i ++ PrintConfigTree c i ++ "\n" ++ printChildren cs i
end

/-- Tree from main.go lines 126-128. -/
def Tree : Node :=
  .mk "root" "" none [] [] 0 none false

/-- The flag-annotation closure from main.go lines 165-168:
t.Flag = flagByPtr[t.Pointer]. -/
def attachFlags (m : Nat → Option Flag) : Node → Node
  | .mk n d ty tg cs p _ r => .mk n d ty tg cs p (m p) r

/-- The per-node closure of ApplyRootBlocks (main.go lines 143-153): the
loop over the registry computes t := reflect.TypeOf(block.Type) - the
constant *reflect.rtype descriptor, since block.Type is itself a
reflect.Type interface value - and compares node.Type against it; a match
sets IsRoot and overwrites Desc, with no break.  The fmt.Println is output
only and is not modelled. -/
def applyBlocksNode (blocks : List Block) (node : Node) : Node :=
  blocks.foldl
    (fun n block =>
      if n.Ty = some (typeOfTypeValue block.Ty) then (n.setIsRoot true).setDesc block.Desc else n)
    node

/-- ApplyRootBlocks from main.go lines 142-154. -/
def ApplyRootBlocks (tree : Node) (blocks : List Block) : Node :=
  WalkConfigTree tree (applyBlocksNode blocks)

mutual
/-- The leaf nodes of a tree: nodes with no children, in left-to-right
order. -/
def leaves : Node → List Node
  | .mk n d ty tg [] p f r => [.mk n d ty tg [] p f r]
  | .mk _ _ _ _ (c :: cs) _ _ _ => leavesList (c :: cs)

def leavesList : List Node → List Node
  | [] => []
  | c :: cs => leaves c ++ leavesList cs
end

mutual
/-- All nodes of a tree in preorder. -/
def allNodes : Node → List Node
  | .mk n d ty tg cs p f r => .mk n d ty tg cs p f r :: allNodesList cs

def allNodesList : List Node → List Node
  | [] => []
  | c :: cs => allNodes c ++ allNodesList cs
end

mutual
/-- Erase the Flag field of every node of a tree.  Two trees have equal
scrubFlag images exactly when they agree on everything except flags. -/
def scrubFlag : Node → Node
  | .mk n d ty tg cs p _ r => .mk n d ty tg (scrubFlagList cs) p none r

def scrubFlagList : List Node → List Node
  | [] => []
  | c :: cs => scrubFlag c :: scrubFlagList cs
end

mutual
/-- WalkConfigTree with the per-node function reading and updating a state,
mirroring main.go's use of closures over mutable state: the children loop
threads the state left to right, then fn runs on the node carrying the
walked children.  Used to observe the order in which fn is invoked. -/
def WalkConfigTreeS {σ : Type} : Node → (Node → σ → Node × σ) → σ → Node × σ
  | .mk n d ty tg cs p f r, fn, s =>
    let r1 := walkChildrenS cs fn s
    fn (.mk n d ty tg r1.1 p f r) r1.2

def walkChildrenS {σ : Type} : List Node → (Node → σ → Node × σ) → σ → List Node × σ
  | [], _, s => ([], s)
  | c :: cs, fn, s =>
    let r1 := WalkConfigTreeS c fn s
    let r2 := walkChildrenS cs fn r1.2
    (r1.1 :: r2.1, r2.2)
end

/-- A per-node function that records the visited node's name and returns
the node unchanged. -/
def logStep (n : Node) (s : List String) : Node × List String :=
  (n, s ++ [n.Name])

/-- The order in which WalkConfigTree invokes its per-node function,
observed through logStep. -/
def walkLog (t : Node) : List String :=
  (WalkConfigTreeS t logStep []).2

mutual
/-- Postorder listing of node names: children first, then the parent. -/
def postorderNames : Node → List String
  | .mk n _ _ _ cs _ _ _ => postorderNamesList cs ++ [n]

def postorderNamesList : List Node → List String
  | [] => []
  | c :: cs => postorderNames c ++ postorderNamesList cs
end

end Main

namespace P0

/-- Node from src/unnamed/part_000 lines 14-24, field for field
(Type is called Ty); this variant has Desc but no IsRoot. -/
inductive Node where
  | mk (Name : String) (Desc : String) (Ty : Option RType) (Tag : List String)
      (Children : List Node) (Pointer : Nat) (Flag : Option Flag)

def Node.Name : Node → String
  | .mk v _ _ _ _ _ _ => v

def Node.Desc : Node → String
  | .mk _ v _ _ _ _ _ => v

def Node.Ty : Node → Option RType
  | .mk _ _ v _ _ _ _ => v

def Node.Tag : Node → List String
  | .mk _ _ _ v _ _ _ => v

def Node.Children : Node → List Node
  | .mk _ _ _ _ v _ _ => v

def Node.Pointer : Node → Nat
  | .mk _ _ _ _ _ v _ => v

def Node.Flag : Node → Option Flag
  | .mk _ _ _ _ _ _ v => v

/-- ConfigBlock from part_000 lines 30-42, field for field (Type, a string
label, is called Ty; FlagPrefix is called FlagPfx).  Value is the
interface-typed yaml value, never assigned by this program.  In the source
FlagPrefix is declared string but used with append; it is modelled as the
evidently intended list of strings. -/
inductive ConfigBlock where
  | mk (Name : String) (Desc : String) (Ty : String) (Value : Option String)
      (FlagName : String) (FlagPfx : List String) (Fields : List ConfigBlock)
      (IsRoot : Bool)

def ConfigBlock.Name : ConfigBlock → String
  | .mk v _ _ _ _ _ _ _ => v

def ConfigBlock.Desc : ConfigBlock → String
  | .mk _ v _ _ _ _ _ _ => v

def ConfigBlock.Ty : ConfigBlock → String
  | .mk _ _ v _ _ _ _ _ => v

def ConfigBlock.FlagName : ConfigBlock → String
  | .mk _ _ _ _ v _ _ _ => v

def ConfigBlock.FlagPfx : ConfigBlock → List String
  | .mk _ _ _ _ _ v _ _ => v

def ConfigBlock.Fields : ConfigBlock → List ConfigBlock
  | .mk _ _ _ _ _ _ v _ => v

def ConfigBlock.IsRoot : ConfigBlock → Bool
  | .mk _ _ _ _ _ _ _ v => v

/-- Field assignment b.Fields = append(b.Fields, child). -/
def ConfigBlock.addField : ConfigBlock → ConfigBlock → ConfigBlock
  | .mk n d t v fl fp fields r, child => .mk n d t v fl fp (fields ++ [child]) r

/-- Field assignment b.IsRoot = x. -/
def ConfigBlock.setIsRoot : ConfigBlock → Bool → ConfigBlock
  | .mk n d t v fl fp fields _, x => .mk n d t v fl fp fields x

/-- Field assignment b.Desc = x. -/
def ConfigBlock.setDesc : ConfigBlock → String → ConfigBlock
  | .mk n _ t v fl fp fields r, x => .mk n x t v fl fp fields r

/-- Field assignment b.FlagName = x. -/
def ConfigBlock.setFlagName : ConfigBlock → String → ConfigBlock
  | .mk n d t v _ fp fields r, x => .mk n d t v x fp fields r

/-- Field assignment b.FlagPrefix = append(b.FlagPrefix, x). -/
def ConfigBlock.addPfx : ConfigBlock → String → ConfigBlock
  | .mk n d t v fl fp fields r, x => .mk n d t v fl (fp ++ [x]) fields r

/-- The switch body of part_000's getType (lines 56-77), on a non-nil
type.  The recursive calls stand for getType(t.Elem()); an element type is
never nil in reflect, so re-entering through the nil check of getType is
the same as calling the switch body directly. -/
def getTypeSwitch : RType → String
  | .intK | .int16K | .int32K | .int64K
  | .uintK | .uint16K | .uint32K | .uint64K => "int"
  | .float32K | .float64K => "float"
  | .slice e => "list[" ++ getTypeSwitch e ++ "]"
  | .struct_ pkg n => pkg ++ "." ++ n
  | .ptr e => "*" ++ getTypeSwitch e
  | t => RType.kindName t

/-- getType from part_000 lines 52-78.  This is the only variant with the
nil check (lines 53-55); its struct case is qualified with the package
path. -/
def getType : Option RType → String
  | none => "-"
  | some t => getTypeSwitch t

mutual
/-- AnalyzeConfigTree from part_000 lines 149-158: apply fn to the node
first, then fold every child and append the child documents to b.Fields.
The source's nil check on a child document never fires for the transform
used by Apply, which always returns a document. -/
def AnalyzeConfigTree : Node → (Node → ConfigBlock) → ConfigBlock
  | .mk n d ty tg cs p f, fn => analyzeChildren cs fn (fn (.mk n d ty tg cs p f))

/-- The children loop of AnalyzeConfigTree. -/
def analyzeChildren : List Node → (Node → ConfigBlock) → ConfigBlock → ConfigBlock
  | [], _, b => b
  | c :: cs, fn, b => analyzeChildren cs fn (b.addField (AnalyzeConfigTree c fn))
end

/-- Tree from part_000 lines 160-162; cfgTy stands for
reflect.TypeOf(cfg), which is nil only for a nil interface value. -/
def Tree (cfgTy : Option RType) : Node :=
  .mk "root" "" cfgTy [] [] 0 none

/-- blockForNode from part_000 lines 176-183: return the first registry
entry whose type equals the node's type. -/
def blockForNode : Node → List Block → Option Block
  | _, [] => none
  | n, bb :: rest => if n.Ty = some bb.Ty then some bb else blockForNode n rest

/-- The transform closure inside Apply (part_000 lines 187-204).  gfp
stands for the result of getFlagPrefix(), an external collaborator not
under src/. -/
def applyNode (blocks : List Block) (flagMap : Nat → Option Flag) (gfp : String)
    (node : Node) : ConfigBlock :=
  let b := ConfigBlock.mk node.Name node.Desc (getType node.Ty) none "" [] [] false
  let b := match blockForNode node blocks with
    | some rootBlock => ((b.setIsRoot true).addPfx gfp).setDesc rootBlock.Desc
    | none => b
  match flagMap node.Pointer with
  | some fl => (b.setFlagName fl.Name).setDesc fl.Usage
  | none => b

/-- Apply from part_000 lines 186-205 (the extra gfp argument models the
external getFlagPrefix collaborator). -/
def Apply (gfp : String) (tree : Node) (blocks : List Block)
    (flagMap : Nat → Option Flag) : ConfigBlock :=
  AnalyzeConfigTree tree (applyNode blocks flagMap gfp)

/-- The description a node's document holds after the root-block step of
applyNode and before the flag step: the matched block's description, or
else the node's own. -/
def descBeforeFlag (blocks : List Block) (node : Node) : String :=
  match blockForNode node blocks with
  | some rootBlock => rootBlock.Desc
  | none => node.Desc

mutual
/-- All nodes of a tree in preorder. -/
def allNodes : Node → List Node
  | .mk n d ty tg cs p f => .mk n d ty tg cs p f :: allNodesList cs

def allNodesList : List Node → List Node
  | [] => []
  | c :: cs => allNodes c ++ allNodesList cs
end

mutual
/-- AnalyzeConfigTree with the transform reading and updating a state,
mirroring part_000's use of closures over mutable state: fn runs on the
node first, then the children loop threads the state left to right.  Used
to observe the order in which fn is invoked. -/
def AnalyzeConfigTreeS {σ : Type} : Node → (Node → σ → ConfigBlock × σ) → σ → ConfigBlock × σ
  | .mk n d ty tg cs p f, fn, s =>
    let r1 := fn (.mk n d ty tg cs p f) s
    analyzeChildrenS cs fn r1.1 r1.2

def analyzeChildrenS {σ : Type} : List Node → (Node → σ → ConfigBlock × σ) → ConfigBlock → σ → ConfigBlock × σ
  | [], _, b, s => (b, s)
  | c :: cs, fn, b, s =>
    let r1 := AnalyzeConfigTreeS c fn s
    analyzeChildrenS cs fn (b.addField r1.1) r1.2
end

/-- A transform that records the visited node's name and returns a fresh
document for the node. -/
def logStep (n : Node) (s : List String) : ConfigBlock × List String :=
  (ConfigBlock.mk n.Name n.Desc "" none "" [] [] false, s ++ [n.Name])

/-- The order in which AnalyzeConfigTree invokes its transform, observed
through logStep. -/
def analyzeLog (t : Node) : List String :=
  (AnalyzeConfigTreeS t logStep []).2

mutual
/-- Preorder listing of node names: the parent first, then its children. -/
def preorderNames : Node → List String
  | .mk n _ _ _ cs _ _ => n :: preorderNamesList cs

def preorderNamesList : List Node → List String
  | [] => []
  | c :: cs => preorderNames c ++ preorderNamesList cs
end

mutual
/-- PrintConfigTree from part_000 lines 117-138 (same shape as part_001's,
over the part_000 Node type; no IsRoot debug write). -/
def PrintConfigTree : Node → Nat → String
  | .mk nm _ ty _ cs _ f, i =>
    let sb := nm
    let sb := match ty, cs with
      | some t, [] => sb ++ ": " ++ getType (some t) ++ flagSuffix f
      | _, _ => sb
    match cs with
    | [] => sb
    | _ :: _ => sb ++ " \x7b\n" ++ printChildren cs (i + 1) ++ indent i ++ "\x7d"

/-- The children loop of part_000's PrintConfigTree, already at depth i+1. -/
def printChildren : List Node → Nat → String
  | [], _ => ""
  | c :: cs, i => indent i ++ PrintConfigTree c i ++ "\n" ++ printChildren cs i
end

end P0

namespace P1

/-- ConfigTree from src/unnamed/part_001 lines 12-19, field for field
(Type is called Ty); children are called Fields in this variant. -/
inductive ConfigTree where
  | mk (Name : String) (Tag : List String) (Ty : Option RType)
      (Fields : List ConfigTree) (Pointer : Nat) (Flag : Option Flag)

def ConfigTree.Name : ConfigTree → String
  | .mk v _ _ _ _ _ => v

def ConfigTree.Tag : ConfigTree → List String
  | .mk _ v _ _ _ _ => v

def ConfigTree.Ty : ConfigTree → Option RType
  | .mk _ _ v _ _ _ => v

def ConfigTree.Fields : ConfigTree → List ConfigTree
  | .mk _ _ _ v _ _ => v

def ConfigTree.Pointer : ConfigTree → Nat
  | .mk _ _ _ _ v _ => v

def ConfigTree.Flag : ConfigTree → Option Flag
  | .mk _ _ _ _ _ v => v

/-- getType from part_001 lines 29-52; textually identical to main.go's
(unqualified struct name, no nil check). -/
def getType : RType → String
  | .intK | .int16K | .int32K | .int64K
  | .uintK | .uint16K | .uint32K | .uint64K => "int"
  | .float32K | .float64K => "float"
  | .slice e => "list[" ++ getType e ++ "]"
  | .struct_ _ n => n
  | .ptr e => "*" ++ getType e
  | t => RType.kindName t

mutual
/-- PrintConfigTree from part_001 lines 91-112: name, then for a childless
typed node the type label and optional flag suffix, then the brace block
for children. -/
def PrintConfigTree : ConfigTree → Nat → String
  | .mk nm _ ty cs _ f, i =>
    let sb := nm
    let sb := match ty, cs with
      | some t, [] => sb ++ ": " ++ getType t ++ flagSuffix f
      | _, _ => sb
    match cs with
    | [] => sb
    | _ :: _ => sb ++ " \x7b\n" ++ printChildren cs (i + 1) ++ indent i ++ "\x7d"

/-- The children loop of part_001's PrintConfigTree, already at depth i+1. -/
def printChildren : List ConfigTree → Nat → String
  | [], _ => ""
  | c :: cs, i => indent i ++ PrintConfigTree c i ++ "\n" ++ printChildren cs i
end

/-- part_001's getType viewed on a possibly-nil reflect.Type: the
function (lines 29-52) has no nil branch, so t.Kind() on a nil descriptor
panics, embedded as none; a non-nil descriptor gets its switch label.
part_001's main calls getType only under the guard t.Type != nil
(line 94). -/
def getTypeOpt : Option RType → Option String
  | none => none
  | some t => some (getType t)

/-- Root from part_001 lines 123-125. -/
def Root : ConfigTree :=
  .mk "root" [] none [] 0 none

end P1

/-- The integer family of kinds named by claim C3: every signed and
unsigned integer kind of every bit width. -/
def integerKind : RType → Bool
  | .intK | .int8K | .int16K | .int32K | .int64K
  | .uintK | .uint8K | .uint16K | .uint32K | .uint64K => true
  | _ => false

/-- The floating kinds. -/
def floatKind : RType → Bool
  | .float32K | .float64K => true
  | _ => false

/-- Claim C1 as stated, for a given flag set (in visitation order) and a
given built tree: after the flag-annotation walk of main.go lines 165-168,
a leaf whose storage identity equals a non-deprecated flag's identity is
bound to that flag, and a leaf all of whose identity matches are deprecated
(or that matches no flag) is bound to none. -/
abbrev ClaimC1 (fs : List Flag) (tree : Main.Node) : Prop :=
  ∀ L ∈ Main.leaves (Main.WalkConfigTree tree (Main.attachFlags (parseFlags fs))),
    (∀ F ∈ fs, L.Pointer = F.ValuePtr → F.Value ≠ "deprecated" → L.Flag = some F) ∧
    ((∀ F ∈ fs, L.Pointer = F.ValuePtr → F.Value = "deprecated") → L.Flag = none)

/-- Two non-deprecated flags bound to the same storage location (in Go:
two names registered on the same variable), in visitation order. -/
def c1FlagA : Flag :=
  { Name := "flag-a", Usage := "usage a", Value := "0", ValuePtr := 1, DefValue := "0" }

def c1FlagB : Flag :=
  { Name := "flag-b", Usage := "usage b", Value := "0", ValuePtr := 1, DefValue := "0" }

def c1Flags : List Flag := [c1FlagA, c1FlagB]

/-- A built tree with a single leaf whose storage identity is shared by
both flags of c1Flags. -/
def c1Tree : Main.Node :=
  .mk "root" "" none [] [.mk "field" "" (some .intK) [] [] 1 none false] 0 none false

/-- A flag set and tree for the C1 witness: one non-deprecated flag, one
leaf at its identity. -/
def c1WFlag : Flag :=
  { Name := "max-size", Usage := "limit", Value := "5", ValuePtr := 7, DefValue := "5" }

def c1WTree : Main.Node :=
  .mk "root" "" none [] [.mk "field" "" (some .intK) [] [] 7 none false] 0 none false

/-- Claim C2 as stated, for a given tree and block registry: a node whose
type matches more than one registry entry ends up marked with the FIRST
matching entry (find? order) after main.go's ApplyRootBlocks. -/
abbrev ClaimC2 (tree : Main.Node) (blocks : List Block) : Prop :=
  ∀ n ∈ Main.allNodes (Main.ApplyRootBlocks tree blocks),
    1 < (blocks.filter (fun b => n.Ty == some b.Ty)).length →
      ∀ b, blocks.find? (fun b => n.Ty == some b.Ty) = some b →
        n.IsRoot = true ∧ n.Desc = b.Desc

/-- A registry type registered twice under different descriptions. -/
def c2Ty : RType := .struct_ "pkg" "S"

def c2Blocks : List Block :=
  [{ Name := "first", Desc := "descA", Ty := c2Ty },
   { Name := "second", Desc := "descB", Ty := c2Ty }]

def c2Tree : Main.Node := .mk "n" "" (some c2Ty) [] [] 0 none false

/-- The same doubly-registered type as a part_000 node. -/
def c2P0Node : P0.Node := .mk "n" "" (some c2Ty) [] [] 0 none

/-- Claim C3 as stated: every integer-family kind (of every bit width)
classifies as "int" and every floating kind as "float". -/
abbrev ClaimC3 : Prop :=
  ∀ t : RType, (integerKind t = true → Main.getType t = "int") ∧
    (floatKind t = true → Main.getType t = "float")

/-- Claim C4 as stated: every cited Type Classifier is total - a nil
descriptor yields the fixed placeholder "-" rather than a failure, and
every other descriptor yields some label. -/
abbrev ClaimC4 : Prop :=
  P0.getType none = "-" ∧
  Main.getTypeOpt none = some "-" ∧
  P1.getTypeOpt none = some "-" ∧
  ∀ t : RType, (Main.getTypeOpt (some t)).isSome ∧ (P1.getTypeOpt (some t)).isSome

/-- Claim C5 as stated: a node built from a structured field that has a
declared type but no children is treated as a branch by the renderer, its
type label suppressed (so it renders as its bare name). -/
abbrev ClaimC5 : Prop :=
  ∀ (t : P1.ConfigTree) (pkg nm : String),
    t.Ty = some (.struct_ pkg nm) → t.Fields = [] →
      ∀ i, P1.PrintConfigTree t i = t.Name

/-- A structured field with zero documentable descendants. -/
def c5Node : P1.ConfigTree := .mk "s" [] (some (.struct_ "pkg" "S")) [] 0 none

/-- Claim C6 as stated: when a node's identity is found in the flag map,
part_000's transform binds the flag and overwrites the description with
the flag's usage text only when the description accumulated so far (block
description, else the node's own) is empty. -/
abbrev ClaimC6 : Prop :=
  ∀ (blocks : List Block) (flagMap : Nat → Option Flag) (gfp : String)
    (node : P0.Node) (fl : Flag), flagMap node.Pointer = some fl →
    (P0.applyNode blocks flagMap gfp node).FlagName = fl.Name ∧
    (P0.applyNode blocks flagMap gfp node).Desc =
      (if P0.descBeforeFlag blocks node = "" then fl.Usage else P0.descBeforeFlag blocks node)

/-- A registry entry, node and flag exercising C6: the node's type matches
the block (non-empty block description) and its identity is in the flag
map. -/
def c6Ty : RType := .struct_ "pkg" "T"

def c6Blocks : List Block := [{ Name := "blk", Desc := "block desc", Ty := c6Ty }]

def c6Node : P0.Node := .mk "n" "" (some c6Ty) [] [] 4 none

def c6Flag : Flag :=
  { Name := "f", Usage := "flag usage", Value := "0", ValuePtr := 4, DefValue := "0" }

def c6FlagMap : Nat → Option Flag :=
  fun p => if p = 4 then some c6Flag else none

/-- Claim C7 as stated: in both walkers, the per-node function runs on a
node only after it has run on all of the node's children — observed
through the name logs of the instrumented walkers, every child's name is
logged before its parent's. -/
abbrev ClaimC7 : Prop :=
  (∀ t : Main.Node, ∀ n ∈ Main.allNodes t, ∀ c ∈ n.Children,
    (Main.walkLog t).indexOf c.Name < (Main.walkLog t).indexOf n.Name) ∧
  (∀ t : P0.Node, ∀ n ∈ P0.allNodes t, ∀ c ∈ n.Children,
    (P0.analyzeLog t).indexOf c.Name < (P0.analyzeLog t).indexOf n.Name)

/-- A two-node tree (parent "a", child "b") for part_000's fold. -/
def c7Child : P0.Node := .mk "b" "" (some .intK) [] [] 1 none

def c7Tree : P0.Node := .mk "a" "" none [] [c7Child] 0 none

/-- Claim C8 as stated: a leaf renders exactly as name, colon-space, type
label, then the flag suffix exactly when a flag is bound, with nothing
else between the name and the colon, in main.go's renderer and part_001's;
and the indentation unit is two spaces per depth level. -/
abbrev ClaimC8 : Prop :=
  (∀ (t : Main.Node) (ty : RType), t.Ty = some ty → t.Children = [] → ∀ i,
    Main.PrintConfigTree t i = t.Name ++ ": " ++ Main.getType ty ++ flagSuffix t.Flag) ∧
  (∀ (t : P1.ConfigTree) (ty : RType), t.Ty = some ty → t.Fields = [] → ∀ i,
    P1.PrintConfigTree t i = t.Name ++ ": " ++ P1.getType ty ++ flagSuffix t.Flag) ∧
  (∀ i, (indent i).data = List.replicate (2 * i) ' ')

/-- A typed leaf with no flag bound. -/
def c8Leaf : Main.Node := .mk "x" "" (some .intK) [] [] 3 none false

/-- A typed leaf of part_001 with a flag bound, for the C8 witness. -/
def c8Flag : Flag :=
  { Name := "max-size", Usage := "u", Value := "5", ValuePtr := 9, DefValue := "5" }

def c8P1Leaf : P1.ConfigTree := .mk "fieldname" [] (some .intK) [] 9 (some c8Flag)

/-- Claim C9 as stated: every tree-construction entry point yields a root
named "root" with no declared type, whatever the input configuration
value. -/
abbrev ClaimC9 : Prop :=
  Main.Tree.Name = "root" ∧ Main.Tree.Ty = none ∧
  P1.Root.Name = "root" ∧ P1.Root.Ty = none ∧
  ∀ cfgTy : Option RType, (P0.Tree cfgTy).Name = "root" ∧ (P0.Tree cfgTy).Ty = none

/-- The dynamic type of the configuration value part_000's main hands to
Tree: a pointer to the loki configuration struct. -/
def lokiConfigTy : RType := .ptr (.struct_ "github.com/grafana/loki/pkg/loki" "Config")

/-- Strong induction over main.go trees: to prove a property of every
node it suffices to prove it for a node assuming it for all children. -/
theorem mainNodeRec (P : Main.Node → Prop)
    (h : ∀ (n d : String) (ty : Option RType) (tg : List String)
      (cs : List Main.Node) (p : Nat) (f : Option Flag) (r : Bool),
      (∀ c ∈ cs, P c) → P (.mk n d ty tg cs p f r)) : ∀ t, P t
  | .mk n d ty tg cs p f r => h n d ty tg cs p f r (fun c hc => mainNodeRec P h c)
termination_by t => sizeOf t
decreasing_by
  have hlt := List.sizeOf_lt_of_mem hc
  simp only [Main.Node.mk.sizeOf_spec]
  omega

/-- Strong induction over part_000 trees. -/
theorem p0NodeRec (P : P0.Node → Prop)
    (h : ∀ (n d : String) (ty : Option RType) (tg : List String)
      (cs : List P0.Node) (p : Nat) (f : Option Flag),
      (∀ c ∈ cs, P c) → P (.mk n d ty tg cs p f)) : ∀ t, P t
  | .mk n d ty tg cs p f => h n d ty tg cs p f (fun c hc => p0NodeRec P h c)
termination_by t => sizeOf t
decreasing_by
  have hlt := List.sizeOf_lt_of_mem hc
  simp only [P0.Node.mk.sizeOf_spec]
  omega

/-- Scrubbing flags commutes with walking a list of children under the
flag-attaching function, given it does on each child. -/
theorem scrubFlagList_walkChildren (fn : Main.Node → Main.Node) (cs : List Main.Node)
    (h : ∀ c ∈ cs, Main.scrubFlag (Main.WalkConfigTree c fn) = Main.scrubFlag c) :
    Main.scrubFlagList (Main.walkChildren cs fn) = Main.scrubFlagList cs := by
  induction cs with
  | nil => rfl
  | cons c cs ih =>
    simp only [Main.walkChildren, Main.scrubFlagList]
    rw [h c (List.mem_cons_self c cs), ih (fun c' hc' => h c' (List.mem_cons_of_mem c hc'))]

/-- C10: the flag-annotation walk of main.go lines 165-168 modifies only
the Flag field: scrubbing flags from the annotated tree gives back the
scrubbed original, so Name, Desc, Type, Tag, Pointer, IsRoot and the
number and order of children of every node are untouched. -/
theorem C10_flag_annotation_frame : ∀ (m : Nat → Option Flag) (t : Main.Node),
    Main.scrubFlag (Main.WalkConfigTree t (Main.attachFlags m)) = Main.scrubFlag t := by
  intro m t
  induction t using mainNodeRec with
  | _ n d ty tg cs p f r ih =>
    simp only [Main.WalkConfigTree, Main.attachFlags, Main.scrubFlag, Main.Node.mk.injEq,
      true_and, and_true]
    exact scrubFlagList_walkChildren _ cs ih

/-- Collecting the leaves of walked children is mapping the per-node
function over the original leaves, given that holds on each child. -/
theorem leavesList_walkChildren (fn : Main.Node → Main.Node) (cs : List Main.Node)
    (h : ∀ c ∈ cs, Main.leaves (Main.WalkConfigTree c fn) = (Main.leaves c).map fn) :
    Main.leavesList (Main.walkChildren cs fn) = (Main.leavesList cs).map fn := by
  induction cs with
  | nil => rfl
  | cons c cs ih =>
    simp only [Main.walkChildren, Main.leavesList, List.map_append]
    rw [h c (List.mem_cons_self c cs), ih (fun c' hc' => h c' (List.mem_cons_of_mem c hc'))]

/-- The leaves of the flag-annotated tree are exactly the original leaves
with the annotation closure applied to each. -/
theorem leaves_walk_attach (m : Nat → Option Flag) : ∀ t : Main.Node,
    Main.leaves (Main.WalkConfigTree t (Main.attachFlags m))
      = (Main.leaves t).map (Main.attachFlags m) := by
  intro t
  induction t using mainNodeRec with
  | _ n d ty tg cs p f r ih =>
    cases cs with
    | nil => simp [Main.WalkConfigTree, Main.walkChildren, Main.attachFlags, Main.leaves]
    | cons c cs =>
      simp only [Main.WalkConfigTree, Main.walkChildren, Main.attachFlags, Main.leaves]
      exact leavesList_walkChildren _ (c :: cs) ih

/-- The annotation closure sets Flag to the identity lookup and keeps the
Pointer. -/
theorem attachFlags_fields (m : Nat → Option Flag) (t : Main.Node) :
    (Main.attachFlags m t).Flag = m t.Pointer ∧ (Main.attachFlags m t).Pointer = t.Pointer := by
  cases t
  simp [Main.attachFlags, Main.Node.Flag, Main.Node.Pointer]

/-- Folding the flag index over flags none of which is a live binding for
identity p leaves the map unchanged at p. -/
theorem parseFoldl_skip (p : Nat) : ∀ (fs : List Flag) (m : Nat → Option Flag),
    (∀ F ∈ fs, F.Value = "deprecated" ∨ F.ValuePtr ≠ p) →
      fs.foldl parseStep m p = m p
  | [], _, _ => rfl
  | f :: fs, m, h => by
    rw [List.foldl_cons,
      parseFoldl_skip p fs (parseStep m f) (fun F hF => h F (List.mem_cons_of_mem f hF))]
    rcases h f (List.mem_cons_self f fs) with hdep | hptr
    · simp [parseStep, hdep]
    · by_cases hv : f.Value = "deprecated"
      · simp [parseStep, hv]
      · simp only [parseStep, if_neg hv, mapInsert]
        rw [if_neg (fun hh => hptr hh.symm)]

/-- Folding the flag index makes p point at F when F is a live binding for
p and the only one among the visited flags. -/
theorem parseFoldl_unique (p : Nat) (F : Flag) : ∀ (fs : List Flag) (m : Nat → Option Flag),
    F ∈ fs → F.ValuePtr = p → F.Value ≠ "deprecated" →
    (∀ G ∈ fs, G.ValuePtr = p → G.Value ≠ "deprecated" → G = F) →
      fs.foldl parseStep m p = some F
  | [], _, hmem, _, _, _ => absurd hmem (List.not_mem_nil F)
  | f :: fs, m, hmem, hptr, hgood, huniq => by
    rw [List.foldl_cons]
    by_cases hex : ∃ G ∈ fs, G.ValuePtr = p ∧ G.Value ≠ "deprecated"
    · obtain ⟨G, hG, hGp, hGgood⟩ := hex
      have hGF : G = F := huniq G (List.mem_cons_of_mem f hG) hGp hGgood
      rw [hGF] at hG
      exact parseFoldl_unique p F fs (parseStep m f) hG hptr hgood
        (fun G hG' => huniq G (List.mem_cons_of_mem f hG'))
    · push_neg at hex
      have hFf : F = f := by
        rcases List.mem_cons.mp hmem with h | h
        · exact h
        · exact absurd hgood (not_not_intro (hex F h hptr))
      have hskip : fs.foldl parseStep (parseStep m f) p = parseStep m f p :=
        parseFoldl_skip p fs (parseStep m f) (fun G hG => by
          by_cases hGp : G.ValuePtr = p
          · exact Or.inl (hex G hG hGp)
          · exact Or.inr hGp)
      rw [hskip, ← hFf]
      simp only [parseStep, if_neg hgood, mapInsert]
      rw [if_pos hptr.symm]

/-- Counterexample to C1: two non-deprecated flags registered on the same
storage location (legal in Go's flag package: two names on one variable).
The map write of parseFlags keeps only the last visited one, so the leaf
is not bound to the first flag as the claim demands. -/
theorem C1_cex : ¬ ClaimC1 c1Flags c1Tree := by decide

/-- C1 amended: the claim holds provided no two distinct non-deprecated
flags of the set are bound to the same storage identity (otherwise the
last visited one wins): an identity-matching, non-deprecated flag is the
leaf's bound flag, and a leaf all of whose identity matches are deprecated
(or that matches none) is bound to nothing. -/
theorem C1_amended (fs : List Flag) (tree : Main.Node)
    (huniq : ∀ F ∈ fs, ∀ G ∈ fs, F.Value ≠ "deprecated" → G.Value ≠ "deprecated" →
      F.ValuePtr = G.ValuePtr → F = G) :
    ∀ L ∈ Main.leaves (Main.WalkConfigTree tree (Main.attachFlags (parseFlags fs))),
      (∀ F ∈ fs, L.Pointer = F.ValuePtr → F.Value ≠ "deprecated" → L.Flag = some F) ∧
      ((∀ F ∈ fs, L.Pointer = F.ValuePtr → F.Value = "deprecated") → L.Flag = none) := by
  intro L hL
  rw [leaves_walk_attach] at hL
  obtain ⟨L0, hL0, hEq⟩ := List.mem_map.mp hL
  obtain ⟨hFlag, hPtr⟩ := attachFlags_fields (parseFlags fs) L0
  rw [← hEq]
  constructor
  · intro F hF hp hgood
    rw [hFlag]
    rw [hPtr] at *
    have hp' : F.ValuePtr = L0.Pointer := by rw [← hp]
    exact parseFoldl_unique L0.Pointer F fs _ hF hp' hgood
      (fun G hG hGp hGgood => huniq G hG F hF hGgood hgood (by rw [hGp, hp']))
  · intro hall
    rw [hFlag]
    rw [hPtr] at hall
    exact parseFoldl_skip L0.Pointer fs _ (fun F hF => by
      by_cases hFp : F.ValuePtr = L0.Pointer
      · exact Or.inl (hall F hF hFp.symm)
      · exact Or.inr hFp)

/-- Witness for C1 amended at a concrete flag set and tree: the single
leaf ends up bound to the single live flag at its identity. -/
theorem C1_witness :
    (Main.Node.mk "field" "" (some RType.intK) [] [] 7 (some c1WFlag) false).Flag
      = some c1WFlag := by
  have h := C1_amended [c1WFlag] c1WTree (by decide)
  have hm : Main.Node.mk "field" "" (some RType.intK) [] [] 7 (some c1WFlag) false
      ∈ Main.leaves (Main.WalkConfigTree c1WTree (Main.attachFlags (parseFlags [c1WFlag]))) := by
    show _ ∈ [Main.Node.mk "field" "" (some RType.intK) [] [] 7 (some c1WFlag) false]
    exact List.mem_singleton.mpr rfl
  exact (h _ hm).1 c1WFlag (List.mem_singleton.mpr rfl) (by decide) (by decide)

/-- One step of the registry loop of ApplyRootBlocks, as a foldl step. -/
theorem applyBlocksNode_cons (b : Block) (bs : List Block) (n : Main.Node) :
    Main.applyBlocksNode (b :: bs) n
      = Main.applyBlocksNode bs
          (if n.Ty = some (typeOfTypeValue b.Ty)
            then (n.setIsRoot true).setDesc b.Desc else n) := rfl

/-- The registry loop of main.go's ApplyRootBlocks compares a node's type
against the constant *reflect.rtype descriptor, so every node whose type
is anything else - in particular every node built from a configuration
field - passes through unchanged. -/
theorem applyBlocksNode_skip : ∀ (blocks : List Block) (n : Main.Node),
    n.Ty ≠ some reflectRtypePtr → Main.applyBlocksNode blocks n = n
  | [], _, _ => rfl
  | b :: bs, n, h => by
    rw [applyBlocksNode_cons,
      if_neg (show ¬ n.Ty = some (typeOfTypeValue b.Ty) from h)]
    exact applyBlocksNode_skip bs n h

/-- Every node of a member of a children list is a node of the list. -/
theorem allNodesList_sub (cs : List Main.Node) (c : Main.Node) (hc : c ∈ cs) :
    ∀ x ∈ Main.allNodes c, x ∈ Main.allNodesList cs := by
  induction cs with
  | nil => cases hc
  | cons c' cs' ih =>
    intro x hx
    simp only [Main.allNodesList, List.mem_append]
    rcases List.mem_cons.mp hc with h | h
    · exact Or.inl (h ▸ hx)
    · exact Or.inr (ih h x hx)

/-- Walking a children list with a function fixing every child leaves the
list unchanged. -/
theorem walkChildren_id (fn : Main.Node → Main.Node) (cs : List Main.Node)
    (h : ∀ c ∈ cs, Main.WalkConfigTree c fn = c) :
    Main.walkChildren cs fn = cs := by
  induction cs with
  | nil => rfl
  | cons c cs ih =>
    simp only [Main.walkChildren]
    rw [h c (List.mem_cons_self c cs), ih (fun c' hc' => h c' (List.mem_cons_of_mem c hc'))]

/-- A walk whose per-node function fixes every node whose declared type
is not the *reflect.rtype descriptor leaves a tree of such nodes
unchanged. -/
theorem mainWalk_id (fn : Main.Node → Main.Node)
    (hfn : ∀ n : Main.Node, n.Ty ≠ some reflectRtypePtr → fn n = n) :
    ∀ t : Main.Node, (∀ x ∈ Main.allNodes t, x.Ty ≠ some reflectRtypePtr) →
      Main.WalkConfigTree t fn = t := by
  intro t
  induction t using mainNodeRec with
  | _ n d ty tg cs p f r ih =>
    intro htree
    simp only [Main.WalkConfigTree]
    have hcs : Main.walkChildren cs fn = cs :=
      walkChildren_id fn cs (fun c hc => ih c hc (fun x hx =>
        htree x (by
          simp only [Main.allNodes, List.mem_cons]
          exact Or.inr (allNodesList_sub cs c hc x hx))))
    rw [hcs]
    exact hfn _ (htree _ (by simp [Main.allNodes]))

/-- blockForNode returns the first matching registry entry: the registry
splits into a non-matching prefix, the returned entry, and a remainder. -/
theorem blockForNode_first : ∀ (blocks : List Block) (n : P0.Node) (b : Block),
    P0.blockForNode n blocks = some b →
    ∃ pre post, blocks = pre ++ b :: post ∧
      (∀ b' ∈ pre, ¬ n.Ty = some b'.Ty) ∧ n.Ty = some b.Ty
  | [], n, b, h => by simp [P0.blockForNode] at h
  | bb :: rest, n, b, h => by
    rw [show P0.blockForNode n (bb :: rest)
        = (if n.Ty = some bb.Ty then some bb else P0.blockForNode n rest) from rfl] at h
    by_cases hm : n.Ty = some bb.Ty
    · rw [if_pos hm] at h
      injection h with h
      exact ⟨[], rest, by rw [h]; rfl, by simp, h ▸ hm⟩
    · rw [if_neg hm] at h
      obtain ⟨pre, post, heq, hpre, hty⟩ := blockForNode_first rest n b h
      refine ⟨bb :: pre, post, by rw [heq]; rfl, ?_, hty⟩
      intro b' hb'
      rcases List.mem_cons.mp hb' with h' | h'
      · rw [h']; exact hm
      · exact hpre b' h'

/-- Counterexample to C2: a type registered twice.  main.go's matching
loop compares node.Type against reflect.TypeOf(block.Type) - the constant
descriptor of reflect's own *rtype implementation - so the node whose
declared type equals the registered match type is never marked at all:
IsRoot stays false, against the claim. -/
theorem C2_cex : ¬ ClaimC2 c2Tree c2Blocks := by decide

/-- C2 amended: the two block matchers diverge.  part_000's blockForNode
(used by Apply) selects the entry occurring first in registry order and
Apply marks the node's document with it - IsRoot set and, when no flag
overwrites it, the description copied from that first entry; main.go's
ApplyRootBlocks compares node types against reflect.TypeOf(block.Type),
the constant *reflect.rtype descriptor, so it leaves every tree of
configuration nodes entirely unchanged and never marks a node whose
declared type equals a registered match type. -/
theorem C2_amended :
    (∀ (n : P0.Node) (blocks : List Block) (b : Block),
      P0.blockForNode n blocks = some b →
      ∃ pre post, blocks = pre ++ b :: post ∧
        (∀ b' ∈ pre, ¬ n.Ty = some b'.Ty) ∧ n.Ty = some b.Ty) ∧
    (∀ (blocks : List Block) (flagMap : Nat → Option Flag) (gfp : String)
      (node : P0.Node) (b : Block),
      P0.blockForNode node blocks = some b → flagMap node.Pointer = none →
      (P0.applyNode blocks flagMap gfp node).IsRoot = true ∧
      (P0.applyNode blocks flagMap gfp node).Desc = b.Desc) ∧
    (∀ (tree : Main.Node) (blocks : List Block),
      (∀ x ∈ Main.allNodes tree, x.Ty ≠ some reflectRtypePtr) →
      Main.ApplyRootBlocks tree blocks = tree) := by
  refine ⟨?_, ?_, ?_⟩
  · intro n blocks b h
    exact blockForNode_first blocks n b h
  · intro blocks flagMap gfp node b hbfn hfm
    unfold P0.applyNode
    rw [hbfn, hfm]
    constructor <;>
      simp [P0.ConfigBlock.setIsRoot, P0.ConfigBlock.setDesc, P0.ConfigBlock.addPfx,
        P0.ConfigBlock.IsRoot, P0.ConfigBlock.Desc]
  · intro tree blocks htree
    exact mainWalk_id (Main.applyBlocksNode blocks) (applyBlocksNode_skip blocks) tree htree

/-- Witness for C2 amended: on the doubly-registered registry c2Blocks,
part_000's blockForNode picks the first entry and Apply marks the node
with its description, while main.go's ApplyRootBlocks returns the tree
unchanged. -/
theorem C2_witness :
    (∃ pre post, c2Blocks = pre ++ (Block.mk "first" "descA" c2Ty) :: post ∧
      (∀ b' ∈ pre, ¬ c2P0Node.Ty = some b'.Ty) ∧
      c2P0Node.Ty = some (Block.mk "first" "descA" c2Ty).Ty) ∧
    ((P0.applyNode c2Blocks (fun _ => none) "pre" c2P0Node).IsRoot = true ∧
      (P0.applyNode c2Blocks (fun _ => none) "pre" c2P0Node).Desc = "descA") ∧
    Main.ApplyRootBlocks c2Tree c2Blocks = c2Tree := by
  refine ⟨C2_amended.1 c2P0Node c2Blocks (Block.mk "first" "descA" c2Ty) (by decide), ?_, ?_⟩
  · exact C2_amended.2.1 c2Blocks (fun _ => none) "pre" c2P0Node
      (Block.mk "first" "descA" c2Ty) (by decide) rfl
  · exact C2_amended.2.2 c2Tree c2Blocks (by decide)

/-- Counterexample to C3: reflect.Int8 is an integer kind, but the getType
switch of every variant lists neither Int8 nor Uint8, so an int8 field
falls into the default branch and is labelled "int8", not "int". -/
theorem C3_cex : ¬ ClaimC3 := by
  intro h
  exact absurd ((h RType.int8K).1 rfl) (by decide)

/-- C3 amended: every integer kind EXCEPT the 8-bit ones is labelled
"int" and every floating kind "float", in all three variants; the 8-bit
integer kinds fall through to the default branch and are labelled by their
raw kind names "int8" and "uint8". -/
theorem C3_amended :
    (∀ t : RType, integerKind t = true → t ≠ RType.int8K → t ≠ RType.uint8K →
      Main.getType t = "int" ∧ P0.getType (some t) = "int" ∧ P1.getType t = "int") ∧
    (∀ t : RType, floatKind t = true →
      Main.getType t = "float" ∧ P0.getType (some t) = "float" ∧ P1.getType t = "float") ∧
    (Main.getType RType.int8K = "int8" ∧ Main.getType RType.uint8K = "uint8" ∧
      P0.getType (some RType.int8K) = "int8" ∧ P1.getType RType.int8K = "int8") := by
  refine ⟨?_, ?_, by decide⟩
  · intro t ht h8 hu8
    cases t <;> simp_all [integerKind] <;> decide
  · intro t ht
    cases t <;> simp_all [floatKind] <;> decide

/-- Witness for C3 amended: the plain int kind is labelled "int" and
float64 "float" by main.go's classifier. -/
theorem C3_witness :
    Main.getType RType.intK = "int" ∧ Main.getType RType.float64K = "float" :=
  ⟨(C3_amended.1 RType.intK rfl (by decide) (by decide)).1,
   (C3_amended.2.1 RType.float64K rfl).1⟩

/-- part_000's classifier (the only variant with the nil check) is total:
a nil type descriptor yields the placeholder "-", and an actual descriptor
always yields a genuine label, never the placeholder. -/
theorem p0GetTypeTotal :
    P0.getType none = "-" ∧ (∀ t : RType, P0.getType (some t) ≠ "-") := by
  refine ⟨rfl, ?_⟩
  intro t
  show P0.getTypeSwitch t ≠ "-"
  induction t with
  | slice e ih =>
    intro h
    have hd := congrArg String.data h
    rw [show P0.getTypeSwitch (RType.slice e) = "list[" ++ P0.getTypeSwitch e ++ "]" from rfl] at hd
    simp only [String.data_append] at hd
    have hlen := congrArg List.length hd
    simp only [List.length_append, List.length_cons, List.length_nil] at hlen
    omega
  | ptr e ih =>
    intro h
    have hd := congrArg String.data h
    rw [show P0.getTypeSwitch (RType.ptr e) = "*" ++ P0.getTypeSwitch e from rfl] at hd
    simp only [String.data_append, List.singleton_append] at hd
    injection hd with h1 _
    exact absurd h1 (by decide)
  | struct_ pkg n =>
    intro h
    have hd := congrArg String.data h
    rw [show P0.getTypeSwitch (RType.struct_ pkg n) = pkg ++ "." ++ n from rfl] at hd
    simp only [String.data_append] at hd
    have hlen := congrArg List.length hd
    simp only [List.length_append, List.length_cons, List.length_nil] at hlen
    have hp : pkg.data = [] := List.length_eq_zero.mp (by omega)
    have hn : n.data = [] := List.length_eq_zero.mp (by omega)
    rw [hp, hn] at hd
    simp only [List.nil_append, List.append_nil] at hd
    injection hd with h1 _
    exact absurd h1 (by decide)
  | _ => decide

/-- Counterexample to C4: main.go's getType (like part_001's) has no nil
branch, so on a nil descriptor t.Kind() panics and no label - in
particular not the claimed "-" - is produced. -/
theorem C4_cex : ¬ ClaimC4 := by
  intro h
  exact absurd h.2.1 (by decide)

/-- C4 amended: part_000's Type Classifier is total - nil yields the
placeholder "-" and every actual descriptor a genuine label, never the
placeholder; the main.go and part_001 classifiers have no nil branch and
fail on a nil descriptor, producing no label (their callers guard every
call with t.Type != nil), while on every non-nil descriptor they return
their switch label. -/
theorem C4_amended :
    (P0.getType none = "-" ∧ ∀ t : RType, P0.getType (some t) ≠ "-") ∧
    (Main.getTypeOpt none = none ∧ P1.getTypeOpt none = none) ∧
    (∀ t : RType, Main.getTypeOpt (some t) = some (Main.getType t) ∧
      P1.getTypeOpt (some t) = some (P1.getType t)) :=
  ⟨p0GetTypeTotal, ⟨rfl, rfl⟩, fun _ => ⟨rfl, rfl⟩⟩

/-- Witness for C4 amended: the int8 kind gets the genuine label "int8"
from part_000's classifier (not the placeholder) and from main.go's. -/
theorem C4_witness :
    P0.getType (some RType.int8K) ≠ "-" ∧
    Main.getTypeOpt (some RType.int8K) = some "int8" :=
  ⟨C4_amended.1.2 RType.int8K, by rw [(C4_amended.2.2 RType.int8K).1]; rfl⟩

/-- Counterexample to C5: a structured field with a declared type and no
documentable descendants is rendered by part_001 in LEAF form with its
struct name as label, not as a branch with the label suppressed. -/
theorem C5_cex : ¬ ClaimC5 := by
  intro h
  exact absurd (h c5Node "pkg" "S" rfl rfl 0) (by decide)

/-- C5 amended: the renderer treats every node with a declared type and no
children as a leaf: it renders it as name, colon-space and type label
(with the flag suffix when one is bound), in part_001 and part_000 alike,
so a structured field with zero visible fields is rendered in leaf form
with its struct name as label. -/
theorem C5_amended :
    (∀ (t : P1.ConfigTree) (ty : RType), t.Ty = some ty → t.Fields = [] → ∀ i,
      P1.PrintConfigTree t i = t.Name ++ ": " ++ P1.getType ty ++ flagSuffix t.Flag) ∧
    (∀ (t : P0.Node) (ty : RType), t.Ty = some ty → t.Children = [] → ∀ i,
      P0.PrintConfigTree t i = t.Name ++ ": " ++ P0.getType (some ty) ++ flagSuffix t.Flag) := by
  constructor
  · intro t ty hty hcs i
    cases t with
    | mk nm tg ty0 cs p f =>
      simp only [P1.ConfigTree.Ty] at hty
      simp only [P1.ConfigTree.Fields] at hcs
      subst hty hcs
      simp [P1.PrintConfigTree, P1.ConfigTree.Name, P1.ConfigTree.Flag]
  · intro t ty hty hcs i
    cases t with
    | mk nm d ty0 tg cs p f =>
      simp only [P0.Node.Ty] at hty
      simp only [P0.Node.Children] at hcs
      subst hty hcs
      simp [P0.PrintConfigTree, P0.Node.Name, P0.Node.Flag]

/-- Witness for C5 amended: the concrete empty struct node renders in leaf
form with its (package-unqualified) struct name. -/
theorem C5_witness : P1.PrintConfigTree c5Node 0 = "s: S" := by
  have h := C5_amended.1 c5Node (RType.struct_ "pkg" "S") rfl rfl 0
  rw [h]
  decide

/-- Counterexample to C6: part_000's Apply sets the document description
to the flag's usage text UNCONDITIONALLY, overwriting the non-empty
description just copied from the matched root block. -/
theorem C6_cex : ¬ ClaimC6 := by
  intro h
  have := (h c6Blocks c6FlagMap "pre" c6Node c6Flag (by decide)).2
  rw [show P0.descBeforeFlag c6Blocks c6Node = "block desc" from by decide] at this
  exact absurd this (by decide)

/-- C6 amended: when the node's identity is found in the flag map,
part_000's transform records the flag's name and ALWAYS overwrites the
description with the flag's usage text, empty or not; main.go's
flag-annotation closure stores the looked-up flag and touches nothing
else (in particular no description). -/
theorem C6_amended :
    (∀ (blocks : List Block) (flagMap : Nat → Option Flag) (gfp : String)
      (node : P0.Node) (fl : Flag), flagMap node.Pointer = some fl →
      (P0.applyNode blocks flagMap gfp node).FlagName = fl.Name ∧
      (P0.applyNode blocks flagMap gfp node).Desc = fl.Usage) ∧
    (∀ (m : Nat → Option Flag) (t : Main.Node),
      (Main.attachFlags m t).Flag = m t.Pointer ∧ (Main.attachFlags m t).Desc = t.Desc ∧
      (Main.attachFlags m t).Name = t.Name) := by
  constructor
  · intro blocks flagMap gfp node fl h
    unfold P0.applyNode
    rw [h]
    cases P0.blockForNode node blocks with
    | none =>
      constructor <;>
        simp [P0.ConfigBlock.setFlagName, P0.ConfigBlock.setDesc, P0.ConfigBlock.FlagName,
          P0.ConfigBlock.Desc]
    | some rb =>
      constructor <;>
        simp [P0.ConfigBlock.setFlagName, P0.ConfigBlock.setDesc, P0.ConfigBlock.setIsRoot,
          P0.ConfigBlock.addPfx, P0.ConfigBlock.FlagName, P0.ConfigBlock.Desc]
  · intro m t
    cases t
    simp [Main.attachFlags, Main.Node.Flag, Main.Node.Desc, Main.Node.Name, Main.Node.Pointer]

/-- Witness for C6 amended: on the concrete node matched by both a block
and a flag, the final description is the flag's usage text. -/
theorem C6_witness :
    (P0.applyNode c6Blocks c6FlagMap "pre" c6Node).FlagName = "f" ∧
    (P0.applyNode c6Blocks c6FlagMap "pre" c6Node).Desc = "flag usage" :=
  C6_amended.1 c6Blocks c6FlagMap "pre" c6Node c6Flag (by decide)

/-- The instrumented children loop of WalkConfigTree returns the children
unchanged and appends their postorder names to the log, given each child
does. -/
theorem walkChildrenS_log (cs : List Main.Node)
    (h : ∀ c ∈ cs, ∀ s, Main.WalkConfigTreeS c Main.logStep s
      = (c, s ++ Main.postorderNames c)) :
    ∀ s, Main.walkChildrenS cs Main.logStep s = (cs, s ++ Main.postorderNamesList cs) := by
  induction cs with
  | nil => intro s; simp [Main.walkChildrenS, Main.postorderNamesList]
  | cons c cs ih =>
    intro s
    simp only [Main.walkChildrenS, Main.postorderNamesList]
    rw [h c (List.mem_cons_self c cs)]
    rw [ih (fun c' hc' => h c' (List.mem_cons_of_mem c hc'))]
    simp [List.append_assoc]

/-- The instrumented WalkConfigTree returns the tree unchanged and logs
the postorder names. -/
theorem walkS_log : ∀ (t : Main.Node) (s : List String),
    Main.WalkConfigTreeS t Main.logStep s = (t, s ++ Main.postorderNames t) := by
  intro t
  induction t using mainNodeRec with
  | _ n d ty tg cs p f r ih =>
    intro s
    simp only [Main.WalkConfigTreeS]
    rw [walkChildrenS_log cs ih s]
    simp [Main.logStep, Main.postorderNames, Main.Node.Name, List.append_assoc]

/-- The instrumented children loop of AnalyzeConfigTree appends the
children's preorder names to the log, whatever document it accumulates
into, given each child does. -/
theorem analyzeChildrenS_log (cs : List P0.Node)
    (h : ∀ c ∈ cs, ∀ s, (P0.AnalyzeConfigTreeS c P0.logStep s).2
      = s ++ P0.preorderNames c) :
    ∀ (b : P0.ConfigBlock) (s : List String),
      (P0.analyzeChildrenS cs P0.logStep b s).2 = s ++ P0.preorderNamesList cs := by
  induction cs with
  | nil => intro b s; simp [P0.analyzeChildrenS, P0.preorderNamesList]
  | cons c cs ih =>
    intro b s
    simp only [P0.analyzeChildrenS, P0.preorderNamesList]
    rw [ih (fun c' hc' => h c' (List.mem_cons_of_mem c hc'))]
    rw [h c (List.mem_cons_self c cs)]
    simp [List.append_assoc]

/-- The instrumented AnalyzeConfigTree logs the preorder names: the parent
is logged BEFORE its children are folded. -/
theorem analyzeS_log : ∀ (t : P0.Node) (s : List String),
    (P0.AnalyzeConfigTreeS t P0.logStep s).2 = s ++ P0.preorderNames t := by
  intro t
  induction t using p0NodeRec with
  | _ n d ty tg cs p f ih =>
    intro s
    simp only [P0.AnalyzeConfigTreeS, P0.logStep]
    rw [analyzeChildrenS_log cs ih]
    simp [P0.preorderNames, P0.Node.Name, List.append_assoc]

/-- Counterexample to C7: on the two-node tree c7Tree, part_000's
AnalyzeConfigTree applies the transform to the parent "a" before the child
"b" (its log is preorder), so the fold is top-down, not bottom-up. -/
theorem C7_cex : ¬ ClaimC7 := by
  intro h
  have hmem : c7Tree ∈ P0.allNodes c7Tree := by
    show c7Tree ∈ c7Tree :: P0.allNodesList [c7Child]
    exact List.mem_cons_self _ _
  have hchild : c7Child ∈ c7Tree.Children := by
    show c7Child ∈ [c7Child]
    exact List.mem_singleton.mpr rfl
  exact absurd (h.2 c7Tree c7Tree hmem c7Child hchild) (by decide)

/-- C7 amended: main.go's WalkConfigTree is bottom-up — its per-node
function runs in postorder, every node after all of its children, the root
last —, while part_000's AnalyzeConfigTree is top-down: the transform runs
in preorder, every node BEFORE its children, the root first. -/
theorem C7_amended :
    (∀ t : Main.Node, Main.walkLog t = Main.postorderNames t) ∧
    (∀ t : P0.Node, P0.analyzeLog t = P0.preorderNames t) ∧
    (∀ t : Main.Node, (Main.postorderNames t).getLast? = some t.Name) ∧
    (∀ t : P0.Node, (P0.preorderNames t).head? = some t.Name) := by
  refine ⟨?_, ?_, ?_, ?_⟩
  · intro t
    unfold Main.walkLog
    rw [walkS_log t []]
    rfl
  · intro t
    unfold P0.analyzeLog
    rw [analyzeS_log t []]
    rfl
  · intro t
    cases t with
    | mk n d ty tg cs p f r =>
      simp [Main.postorderNames, Main.Node.Name, List.getLast?_concat]
  · intro t
    cases t with
    | mk n d ty tg cs p f =>
      simp [P0.preorderNames, P0.Node.Name]

/-- Counterexample to C8: main.go's renderer prints the debug text
" (<IsRoot>)" between a leaf's name and the colon, so the leaf line is not
exactly name, colon and type label. -/
theorem C8_cex : ¬ ClaimC8 := by
  intro h
  exact absurd (h.1 c8Leaf RType.intK rfl rfl 0) (by decide)

/-- C8 amended: part_001 renders a leaf exactly as the claim states —
name, colon-space, type label, then the flag suffix exactly when a flag is
bound — and the indentation unit is two spaces per depth level; main.go's
renderer additionally prints " (<IsRoot>)" between the name and the
colon. -/
theorem C8_amended :
    (∀ (t : Main.Node) (ty : RType), t.Ty = some ty → t.Children = [] → ∀ i,
      Main.PrintConfigTree t i
        = t.Name ++ " (" ++ boolStr t.IsRoot ++ ")" ++ ": " ++ Main.getType ty
            ++ flagSuffix t.Flag) ∧
    (∀ (t : P1.ConfigTree) (ty : RType), t.Ty = some ty → t.Fields = [] → ∀ i,
      P1.PrintConfigTree t i = t.Name ++ ": " ++ P1.getType ty ++ flagSuffix t.Flag) ∧
    (∀ i, (indent i).data = List.replicate (2 * i) ' ') := by
  refine ⟨?_, ?_, ?_⟩
  · intro t ty hty hcs i
    cases t with
    | mk nm d ty0 tg cs p f r =>
      simp only [Main.Node.Ty] at hty
      simp only [Main.Node.Children] at hcs
      subst hty hcs
      simp [Main.PrintConfigTree, Main.Node.Name, Main.Node.Flag, Main.Node.IsRoot]
  · intro t ty hty hcs i
    cases t with
    | mk nm tg ty0 cs p f =>
      simp only [P1.ConfigTree.Ty] at hty
      simp only [P1.ConfigTree.Fields] at hcs
      subst hty hcs
      simp [P1.PrintConfigTree, P1.ConfigTree.Name, P1.ConfigTree.Flag]
  · intro i
    induction i with
    | zero => rfl
    | succ i ih =>
      show (indent i ++ "  ").data = _
      rw [String.data_append, ih]
      rw [show 2 * (i + 1) = 2 * i + 2 from by ring, List.replicate_add]
      rfl

/-- Witness for C8 amended: a part_001 leaf of integer kind with a bound
flag renders as the claim's scenario says, and the depth-2 indentation is
four spaces. -/
theorem C8_witness :
    P1.PrintConfigTree c8P1Leaf 0 = "fieldname: int -max-size=5" ∧
    (indent 2).data = List.replicate 4 ' ' := by
  constructor
  · have h := C8_amended.2.1 c8P1Leaf RType.intK rfl rfl 0
    rw [h]
    decide
  · exact C8_amended.2.2 2

/-- Counterexample to C9: part_000's Tree stores the dynamic type of the
given configuration value in the root node, so the root DOES carry a
declared type there. -/
theorem C9_cex : ¬ ClaimC9 := by
  intro h
  exact absurd (h.2.2.2.2 (some lokiConfigTy)).2 (by decide)

/-- C9 amended: main.go's Tree and part_001's Root build a root named
"root" with no declared type; part_000's Tree also names the root "root"
but sets its declared type to the configuration value's dynamic type. -/
theorem C9_amended :
    Main.Tree.Name = "root" ∧ Main.Tree.Ty = none ∧
    P1.Root.Name = "root" ∧ P1.Root.Ty = none ∧
    ∀ cfgTy : Option RType, (P0.Tree cfgTy).Name = "root" ∧ (P0.Tree cfgTy).Ty = cfgTy := by
  refine ⟨rfl, rfl, rfl, rfl, ?_⟩
  intro cfgTy
  exact ⟨rfl, rfl⟩

end Doctool
